import Mathlib

/-!
Verification of the correlation-matrix analyzer core: a shallow embedding of
the Pearson-correlation engine (src/utils/statistics.ts) and of the
structure-inference and series-extraction logic (src/components/DataConfig.tsx).

JavaScript numbers are idealized as exact values: a finite number is a
rational, and the non-finite values NaN, Infinity and -Infinity are explicit
markers.  Square roots and the final correlation coefficients live in the
real numbers.
-/

namespace CorrAnalyzer

/-- A JavaScript number: a finite value (idealized as an exact rational) or
one of the non-finite values NaN, Infinity, -Infinity. -/
inductive Val where
  | num (q : ℚ)
  | nan
  | inf
  | neginf
  deriving DecidableEq, Repr

/-- Mirrors the JavaScript test isNaN(v) on a number value. -/
def Val.isNaNB : Val → Bool
  | .nan => true
  | _ => false

/-- Mirrors Number.isFinite(v): only actual finite numbers pass. -/
def Val.isFiniteB : Val → Bool
  | .num _ => true
  | _ => false

/-- Mirrors the JavaScript string rendering of a number value. -/
def Val.display : Val → String
  | .num q => toString q
  | .nan => "NaN"
  | .inf => "Infinity"
  | .neginf => "-Infinity"

/-- A raw table cell.  absent covers the JavaScript null and undefined cells;
a string cell carries its text together with the result of parseFloat on it
(none when the parse yields NaN); a number cell carries the numeric value. -/
inductive Cell where
  | absent
  | str (text : String) (pf : Option ℚ)
  | num (v : Val)
  deriving DecidableEq, Repr

/-- A raw table row, possibly ragged. -/
abbrev Row := List Cell

/-- Mirrors the JavaScript label coercion String(cell), with null and
undefined rendered as the empty string (the code only reaches this through
the pattern String(h ?? '')). -/
def Cell.display : Cell → String
  | .absent => ""
  | .str s _ => s
  | .num v => v.display

/-- Cell coercion used by series extraction (handleAnalyze, DataConfig.tsx
lines 449-459 and 480-490): a number-typed cell is pushed as-is, a string
cell is parseFloat-ed with NaN pushed on failure, and anything else becomes
the NaN placeholder.  The argument is an Option so that reading past the end
of a row (row[colIdx] === undefined) is also covered. -/
def coerceCell : Option Cell → Val
  | some (.num v) => v
  | some (.str _ (some q)) => .num q
  | some (.str _ none) => .nan
  | some .absent => .nan
  | none => .nan

/-! ### The Pearson correlation engine (src/utils/statistics.ts) -/

/-- The running accumulator of calculatePearsonCorrelation
(statistics.ts lines 10-15). -/
structure PAcc where
  sumX : ℚ
  sumY : ℚ
  sumXY : ℚ
  sumXSq : ℚ
  sumYSq : ℚ
  validCount : ℕ
  deriving DecidableEq, Repr

/-- One iteration of the loop in calculatePearsonCorrelation (statistics.ts
lines 18-32): a position is skipped when either side is missing (index past
the end of the array) or not a finite number; otherwise all five sums and
the valid-pair count are updated. -/
def pStep (acc : PAcc) : Option Val → Option Val → PAcc
  | some (.num xi), some (.num yi) =>
    { sumX := acc.sumX + xi
      sumY := acc.sumY + yi
      sumXY := acc.sumXY + xi * yi
      sumXSq := acc.sumXSq + xi * xi
      sumYSq := acc.sumYSq + yi * yi
      validCount := acc.validCount + 1 }
  | _, _ => acc

/-- The accumulated state after the whole loop: the index runs from 0 to
maxLen - 1 where maxLen = max(x.length, y.length) (statistics.ts line 8). -/
def pearsonAcc (x y : List Val) : PAcc :=
  (List.range (max x.length y.length)).foldl
    (fun acc i => pStep acc x[i]? y[i]?) ⟨0, 0, 0, 0, 0, 0⟩

/-- numerator = validCount * sumXY - sumX * sumY (statistics.ts line 37). -/
def pNumerator (acc : PAcc) : ℚ :=
  acc.validCount * acc.sumXY - acc.sumX * acc.sumY

/-- The radicand of the denominator (statistics.ts lines 38-40). -/
def pDenomSq (acc : PAcc) : ℚ :=
  (acc.validCount * acc.sumXSq - acc.sumX * acc.sumX) *
    (acc.validCount * acc.sumYSq - acc.sumY * acc.sumY)

/-- denominator = Math.sqrt((k Sxx - Sx^2) * (k Syy - Sy^2))
(statistics.ts lines 38-40). -/
noncomputable def pDenominator (acc : PAcc) : ℝ :=
  Real.sqrt (pDenomSq acc)

/-- calculatePearsonCorrelation (statistics.ts lines 6-45).  The JavaScript
null result (the undefined-correlation marker) is none. -/
noncomputable def calculatePearsonCorrelation (x y : List Val) : Option ℝ :=
  let acc := pearsonAcc x y
  if acc.validCount < 2 then none
  else if pDenominator acc = 0 then some 0
  else some (pNumerator acc / pDenominator acc)

/-- The substitution performed at statistics.ts line 62: an undefined
correlation becomes 0. -/
noncomputable def pearsonOrZero (x y : List Val) : ℝ :=
  match calculatePearsonCorrelation x y with
  | some r => r
  | none => 0

/-- VariableData from src/types.ts: a named series of values. -/
structure VariableData where
  name : String
  values : List Val
  deriving DecidableEq, Repr

/-- Matrix from src/types.ts. -/
structure Matrix where
  «variables» : List String
  grid : List (List ℝ)

/-- The value stored at grid[i][j] by the loop of generateCorrelationMatrix
(statistics.ts lines 55-67): 1 on the diagonal; for i below j the pair is
computed once from (data[i], data[j]) and written to both grid[i][j] and
grid[j][i], so a lower-triangle entry carries the value computed for the
mirrored upper-triangle position. -/
noncomputable def gridEntry (data : List VariableData) (i j : ℕ) : ℝ :=
  if i = j then 1
  else if i < j then
    pearsonOrZero (data.getD i ⟨"", []⟩).values (data.getD j ⟨"", []⟩).values
  else
    pearsonOrZero (data.getD j ⟨"", []⟩).values (data.getD i ⟨"", []⟩).values

/-- generateCorrelationMatrix (statistics.ts lines 50-70). -/
noncomputable def generateCorrelationMatrix (data : List VariableData) : Matrix :=
  { «variables» := data.map (fun d => d.name)
    grid := (List.range data.length).map
      (fun i => (List.range data.length).map (fun j => gridEntry data i j)) }

/-- Entry (i, j) of a result grid, read through the list representation. -/
noncomputable def gridAt (M : Matrix) (i j : ℕ) : ℝ :=
  (M.grid.getD i []).getD j 0

/-! ### Specification-side view of the Pearson loop -/

/-- The valid pair contributed at position i, if any: both sides must be
present and finite, exactly the complement of the skip condition of the
loop (statistics.ts lines 22-24). -/
def probe (x y : List Val) (i : ℕ) : Option (ℚ × ℚ) :=
  match x[i]?, y[i]? with
  | some (.num a), some (.num b) => some (a, b)
  | _, _ => none

/-- The list of valid pairs in position order, over positions 0 up to
max(x.length, y.length) - 1; every position where either side is missing or
non-finite is skipped and contributes nothing. -/
def validPairs (x y : List Val) : List (ℚ × ℚ) :=
  (List.range (max x.length y.length)).filterMap (probe x y)

/-- The accumulator determined by a list of valid pairs: the five plain sums
and the pair count. -/
def sumsOf (ps : List (ℚ × ℚ)) : PAcc :=
  { sumX := (ps.map fun p => p.1).sum
    sumY := (ps.map fun p => p.2).sum
    sumXY := (ps.map fun p => p.1 * p.2).sum
    sumXSq := (ps.map fun p => p.1 * p.1).sum
    sumYSq := (ps.map fun p => p.2 * p.2).sum
    validCount := ps.length }

/-- Componentwise sum of two accumulators. -/
def accJoin (a b : PAcc) : PAcc :=
  { sumX := a.sumX + b.sumX
    sumY := a.sumY + b.sumY
    sumXY := a.sumXY + b.sumXY
    sumXSq := a.sumXSq + b.sumXSq
    sumYSq := a.sumYSq + b.sumYSq
    validCount := a.validCount + b.validCount }

lemma pStep_probe (acc : PAcc) (x y : List Val) (i : ℕ) :
    pStep acc x[i]? y[i]? =
      match probe x y i with
      | some p =>
        { sumX := acc.sumX + p.1
          sumY := acc.sumY + p.2
          sumXY := acc.sumXY + p.1 * p.2
          sumXSq := acc.sumXSq + p.1 * p.1
          sumYSq := acc.sumYSq + p.2 * p.2
          validCount := acc.validCount + 1 }
      | none => acc := by
  unfold pStep probe
  rcases x[i]? with _ | xv
  · rfl
  · rcases y[i]? with _ | yv
    · cases xv <;> rfl
    · cases xv <;> cases yv <;> rfl

lemma foldl_pStep_eq (x y : List Val) (is : List ℕ) (acc : PAcc) :
    is.foldl (fun a i => pStep a x[i]? y[i]?) acc =
      accJoin acc (sumsOf (is.filterMap (probe x y))) := by
  induction is generalizing acc with
  | nil =>
    cases acc
    simp [accJoin, sumsOf]
  | cons i t ih =>
    rw [List.foldl_cons, ih, List.filterMap_cons]
    cases h : probe x y i with
    | none => rw [pStep_probe, h]
    | some p =>
      rw [pStep_probe, h]
      cases acc
      simp only [accJoin, sumsOf, List.map_cons, List.sum_cons, List.length_cons,
        PAcc.mk.injEq]
      refine ⟨by ring, by ring, by ring, by ring, by ring, by omega⟩

/-- The loop of calculatePearsonCorrelation accumulates exactly the sums and
the count of the valid pairs: skipped positions contribute to nothing. -/
lemma pearsonAcc_eq_sumsOf (x y : List Val) :
    pearsonAcc x y = sumsOf (validPairs x y) := by
  unfold pearsonAcc validPairs
  rw [foldl_pStep_eq]
  cases h : sumsOf ((List.range (max x.length y.length)).filterMap (probe x y))
  simp [accJoin]

/-! ### Cauchy-Schwarz bounds for the accumulated sums -/

lemma sum_product_sub_mul (n : ℕ) (f g : ℕ → ℚ) :
    ∑ p ∈ Finset.range n ×ˢ Finset.range n, (f p.1 - f p.2) * (g p.1 - g p.2) =
      2 * ((n : ℚ) * (∑ i ∈ Finset.range n, f i * g i) -
        (∑ i ∈ Finset.range n, f i) * (∑ i ∈ Finset.range n, g i)) := by
  rw [Finset.sum_product]
  have h1 : ∀ i : ℕ, ∑ j ∈ Finset.range n, (f i - f j) * (g i - g j) =
      (n : ℚ) * (f i * g i) - f i * (∑ j ∈ Finset.range n, g j) -
        (∑ j ∈ Finset.range n, f j) * g i + ∑ j ∈ Finset.range n, f j * g j := by
    intro i
    have e : ∀ j : ℕ, (f i - f j) * (g i - g j) =
        f i * g i - f i * g j - f j * g i + f j * g j := fun j => by ring
    simp only [e]
    rw [Finset.sum_add_distrib, Finset.sum_sub_distrib, Finset.sum_sub_distrib,
      Finset.sum_const, Finset.card_range, nsmul_eq_mul, ← Finset.mul_sum,
      ← Finset.sum_mul]
  simp only [h1]
  rw [Finset.sum_add_distrib, Finset.sum_sub_distrib, Finset.sum_sub_distrib,
    Finset.sum_const, Finset.card_range, nsmul_eq_mul, ← Finset.mul_sum,
    ← Finset.sum_mul, ← Finset.mul_sum]
  ring
lemma sum_product_sq (n : ℕ) (f : ℕ → ℚ) :
    ∑ p ∈ Finset.range n ×ˢ Finset.range n, (f p.1 - f p.2) * (f p.1 - f p.2) =
      2 * ((n : ℚ) * (∑ i ∈ Finset.range n, f i * f i) -
        (∑ i ∈ Finset.range n, f i) ^ 2) := by
  rw [sum_product_sub_mul n f f]
  ring

/-- Centered Cauchy-Schwarz: the square of the covariance-style numerator is
bounded by the product of the two variance-style factors of the radicand. -/
lemma centered_cs (n : ℕ) (f g : ℕ → ℚ) :
    ((n : ℚ) * (∑ i ∈ Finset.range n, f i * g i) -
        (∑ i ∈ Finset.range n, f i) * (∑ i ∈ Finset.range n, g i)) ^ 2 ≤
      ((n : ℚ) * (∑ i ∈ Finset.range n, f i * f i) -
          (∑ i ∈ Finset.range n, f i) ^ 2) *
        ((n : ℚ) * (∑ i ∈ Finset.range n, g i * g i) -
          (∑ i ∈ Finset.range n, g i) ^ 2) := by
  have cs := Finset.sum_mul_sq_le_sq_mul_sq (Finset.range n ×ˢ Finset.range n)
    (fun p => f p.1 - f p.2) (fun p => g p.1 - g p.2)
  have ef : ∑ p ∈ Finset.range n ×ˢ Finset.range n, (f p.1 - f p.2) ^ 2 =
      2 * ((n : ℚ) * (∑ i ∈ Finset.range n, f i * f i) -
        (∑ i ∈ Finset.range n, f i) ^ 2) := by
    simpa [sq] using sum_product_sq n f
  have eg : ∑ p ∈ Finset.range n ×ˢ Finset.range n, (g p.1 - g p.2) ^ 2 =
      2 * ((n : ℚ) * (∑ i ∈ Finset.range n, g i * g i) -
        (∑ i ∈ Finset.range n, g i) ^ 2) := by
    simpa [sq] using sum_product_sq n g
  rw [sum_product_sub_mul n f g, ef, eg] at cs
  nlinarith [cs]

/-- Each factor of the radicand is nonnegative. -/
lemma variance_factor_nonneg (n : ℕ) (f : ℕ → ℚ) :
    0 ≤ (n : ℚ) * (∑ i ∈ Finset.range n, f i * f i) -
      (∑ i ∈ Finset.range n, f i) ^ 2 := by
  have h : 0 ≤ ∑ p ∈ Finset.range n ×ˢ Finset.range n,
      (f p.1 - f p.2) * (f p.1 - f p.2) :=
    Finset.sum_nonneg (fun p _ => mul_self_nonneg _)
  rw [sum_product_sq n f] at h
  linarith

lemma list_map_sum_eq_range (ps : List (ℚ × ℚ)) (F : ℚ × ℚ → ℚ) :
    (ps.map F).sum = ∑ i ∈ Finset.range ps.length, F (ps.getD i (0, 0)) := by
  induction ps with
  | nil => simp
  | cons p t ih =>
    rw [List.map_cons, List.sum_cons, List.length_cons, Finset.sum_range_succ']
    simp only [List.getD_cons_succ, List.getD_cons_zero]
    rw [ih]
    ring

/-- Cauchy-Schwarz at the accumulator level: for the sums of any list of
pairs, the numerator squared is bounded by the radicand. -/
lemma pNumerator_sq_le_pDenomSq (ps : List (ℚ × ℚ)) :
    pNumerator (sumsOf ps) ^ 2 ≤ pDenomSq (sumsOf ps) := by
  have e1 := list_map_sum_eq_range ps (fun p => p.1)
  have e2 := list_map_sum_eq_range ps (fun p => p.2)
  have e3 := list_map_sum_eq_range ps (fun p => p.1 * p.2)
  have e4 := list_map_sum_eq_range ps (fun p => p.1 * p.1)
  have e5 := list_map_sum_eq_range ps (fun p => p.2 * p.2)
  have key := centered_cs ps.length (fun i => (ps.getD i (0, 0)).1)
    (fun i => (ps.getD i (0, 0)).2)
  simp only [pNumerator, pDenomSq, sumsOf]
  rw [e1, e2, e3, e4, e5]
  calc ((ps.length : ℚ) * (∑ i ∈ Finset.range ps.length,
            (ps.getD i (0, 0)).1 * (ps.getD i (0, 0)).2) -
          (∑ i ∈ Finset.range ps.length, (ps.getD i (0, 0)).1) *
            (∑ i ∈ Finset.range ps.length, (ps.getD i (0, 0)).2)) ^ 2 ≤
      ((ps.length : ℚ) * (∑ i ∈ Finset.range ps.length,
            (ps.getD i (0, 0)).1 * (ps.getD i (0, 0)).1) -
          (∑ i ∈ Finset.range ps.length, (ps.getD i (0, 0)).1) ^ 2) *
        ((ps.length : ℚ) * (∑ i ∈ Finset.range ps.length,
            (ps.getD i (0, 0)).2 * (ps.getD i (0, 0)).2) -
          (∑ i ∈ Finset.range ps.length, (ps.getD i (0, 0)).2) ^ 2) := key
    _ = ((ps.length : ℚ) * (∑ i ∈ Finset.range ps.length,
            (ps.getD i (0, 0)).1 * (ps.getD i (0, 0)).1) -
          (∑ i ∈ Finset.range ps.length, (ps.getD i (0, 0)).1) *
            (∑ i ∈ Finset.range ps.length, (ps.getD i (0, 0)).1)) *
        ((ps.length : ℚ) * (∑ i ∈ Finset.range ps.length,
            (ps.getD i (0, 0)).2 * (ps.getD i (0, 0)).2) -
          (∑ i ∈ Finset.range ps.length, (ps.getD i (0, 0)).2) *
            (∑ i ∈ Finset.range ps.length, (ps.getD i (0, 0)).2)) := by ring
/-- Any coefficient actually returned by calculatePearsonCorrelation has
absolute value at most 1. -/
lemma pearson_some_abs_le_one {x y : List Val} {r : ℝ}
    (hc : calculatePearsonCorrelation x y = some r) : |r| ≤ 1 := by
  unfold calculatePearsonCorrelation at hc
  set acc := pearsonAcc x y with hacc
  by_cases h1 : acc.validCount < 2
  · simp [h1] at hc
  by_cases h2 : pDenominator acc = 0
  · simp [h1, h2] at hc
    simp [← hc]
  · simp [h1, h2] at hc
    have hpos : (0 : ℝ) < (pDenomSq acc : ℝ) := by
      by_contra hle
      exact h2 (Real.sqrt_eq_zero'.mpr (le_of_not_lt hle))
    have hsq : (pNumerator acc : ℝ) ^ 2 ≤ (pDenomSq acc : ℝ) := by
      have hq : pNumerator acc ^ 2 ≤ pDenomSq acc := by
        rw [hacc, pearsonAcc_eq_sumsOf]
        exact pNumerator_sq_le_pDenomSq (validPairs x y)
      exact_mod_cast hq
    have hd : 0 < pDenominator acc := Real.sqrt_pos.mpr hpos
    have habs : |(pNumerator acc : ℝ)| ≤ pDenominator acc := by
      calc |(pNumerator acc : ℝ)| = Real.sqrt ((pNumerator acc : ℝ) ^ 2) :=
            (Real.sqrt_sq_eq_abs _).symm
        _ ≤ Real.sqrt (pDenomSq acc) := Real.sqrt_le_sqrt hsq
        _ = pDenominator acc := rfl
    rw [← hc, abs_div, abs_of_pos hd, div_le_one hd]
    exact habs

/-- The matrix-entry value (with the 0 substitution) has absolute value at
most 1. -/
lemma abs_pearsonOrZero_le_one (x y : List Val) : |pearsonOrZero x y| ≤ 1 := by
  unfold pearsonOrZero
  cases hc : calculatePearsonCorrelation x y with
  | none => simp
  | some r => exact pearson_some_abs_le_one hc
/-! ### Structure inference and series extraction (src/components/DataConfig.tsx) -/

/-- Data orientation (DataConfig.tsx line 324): every column is a variable,
or every row is. -/
inductive Orientation where
  | columns
  | rows
  deriving DecidableEq, Repr

/-- detectHeaderRow (DataConfig.tsx lines 331-347): walk the first row,
skipping null and undefined cells; a string cell whose parseFloat is NaN
bumps stringCount, otherwise a number-typed cell or a numerically parseable
cell bumps numberCount; the row is a header when stringCount is positive
and at least numberCount. -/
def detectHeaderRow (table : List Row) : Bool :=
  match table with
  | [] => false
  | firstRow :: _ =>
    let counts := firstRow.foldl
      (fun (c : ℕ × ℕ) cell =>
        match cell with
        | Cell.absent => c
        | Cell.str _ none => (c.1 + 1, c.2)
        | Cell.str _ (some _) => (c.1, c.2 + 1)
        | Cell.num _ => (c.1, c.2 + 1))
      (0, 0)
    decide (0 < counts.1 ∧ counts.2 ≤ counts.1)

/-- Cells that are string-like in the wording of the specification:
non-missing, textual, and failing numeric coercion. -/
def specStringLikeB : Cell → Bool
  | .str _ none => true
  | _ => false

/-- Cells that are number-like in the wording of the specification:
numeric, or textual and numeric-coercible. -/
def specNumberLikeB : Cell → Bool
  | .num _ => true
  | .str _ (some _) => true
  | _ => false

/-- The positional column label A, B, C, ... (String.fromCharCode(65 + i),
DataConfig.tsx line 433). -/
def colLetter (i : ℕ) : String :=
  String.singleton (Char.ofNat (65 + i))

/-- The derivation of headers and dataRows from the raw table and the header
toggle (DataConfig.tsx lines 355-367): with a header row the first row gives
the labels (String(h ?? '')) and the rest of the rows are the data;
otherwise positional labels are synthesized, as many as the maximal length
among the first 10 rows (with 0 for an empty table), and every row is data. -/
def headersAndDataRows (table : List Row) (hasHeaderRow : Bool) :
    List String × List Row :=
  if hasHeaderRow ∧ table ≠ [] then
    ((table.headD []).map Cell.display, table.tail)
  else
    let maxCols := ((table.take 10).map List.length).foldr max 0
    ((List.range maxCols).map fun i => "欄位 " ++ colLetter i, table)

/-- The numeric-cell test of the default-selection effect (DataConfig.tsx
lines 383 and 396): a number-typed cell (any, including NaN and the
infinities), or a string cell whose parseFloat is not NaN. -/
def isNumericLikeCellB : Option Cell → Bool
  | some (.num _) => true
  | some (.str _ (some _)) => true
  | _ => false

/-- The auto-selection effect (DataConfig.tsx lines 373-407), producing the
default SelectionSet for the current orientation: by columns, a column is
added when more than 30 percent of the cells of the first 20 data rows pass
the numeric test (a column with no sampled rows is skipped); by rows, a row
is added when, after dropping its first (label) cell, more than 30 percent
of the remaining cells pass the same test (a row with at most one cell is
skipped). -/
def defaultSelection (table : List Row) (hasHeaderRow : Bool)
    (orient : Orientation) : Finset ℕ :=
  let hd := headersAndDataRows table hasHeaderRow
  match orient with
  | .columns =>
    (List.range hd.1.length).foldl
      (fun sel colIdx =>
        let checkRows := hd.2.take 20
        let numericCount := checkRows.countP
          fun row => isNumericLikeCellB row[colIdx]?
        if 0 < checkRows.length ∧
            (checkRows.length : ℚ) * (3 / 10) < (numericCount : ℚ) then
          insert colIdx sel
        else sel)
      ∅
  | .rows =>
    (List.range hd.2.length).foldl
      (fun sel rowIdx =>
        let row := hd.2.getD rowIdx []
        let numericCount := (row.drop 1).countP
          fun c => isNumericLikeCellB (some c)
        if 1 < row.length ∧
            ((row.length : ℚ) - 1) * (3 / 10) < (numericCount : ℚ) then
          insert rowIdx sel
        else sel)
      ∅

/-- The cell test in the wording of the specification: the cell coerces to a
finite number. -/
def coercesToFiniteB (oc : Option Cell) : Bool :=
  (coerceCell oc).isFiniteB

/-- The default selection as the specification words it: exactly those
indices whose count of sampled cells coercing to a finite number exceeds
30 percent of the sampled count, with the same zero-sample and label-cell
exclusions. -/
def defaultSelectionSpec (table : List Row) (hasHeaderRow : Bool)
    (orient : Orientation) : Finset ℕ :=
  let hd := headersAndDataRows table hasHeaderRow
  match orient with
  | .columns =>
    (Finset.range hd.1.length).filter fun colIdx =>
      let checkRows := hd.2.take 20
      0 < checkRows.length ∧
        (checkRows.length : ℚ) * (3 / 10) <
          ((checkRows.countP fun row => coercesToFiniteB row[colIdx]?) : ℚ)
  | .rows =>
    (Finset.range hd.2.length).filter fun rowIdx =>
      let row := hd.2.getD rowIdx []
      1 < row.length ∧
        ((row.length : ℚ) - 1) * (3 / 10) <
          (((row.drop 1).countP fun c => coercesToFiniteB (some c)) : ℚ)

/-- Series values of one column (handleAnalyze, DataConfig.tsx lines
449-459): one coerced value per data row, in row order, with the NaN
placeholder preserving the position of every cell that fails coercion. -/
def columnValues (dataRows : List Row) (colIdx : ℕ) : List Val :=
  dataRows.map fun row => coerceCell row[colIdx]?

/-- Series values of one row (lines 480-490): the cells after the first
(label) cell, coerced in order, with NaN placeholders preserved. -/
def rowValues (row : Row) : List Val :=
  (row.drop 1).map fun c => coerceCell (some c)

/-- The valid-data count used by the post-filter (lines 461 and 492):
values.filter(v so that not isNaN(v)).length.  Note that the infinities
pass this test. -/
def jsValidCount (vs : List Val) : ℕ :=
  (vs.filter fun v => !v.isNaNB).length

/-- The count of finite values, as the specification words it. -/
def specFiniteCount (vs : List Val) : ℕ :=
  (vs.filter fun v => v.isFiniteB).length

/-- Column-variable name (line 464): headers[colIdx] with the synthesized
label as fallback for a missing or empty header (JavaScript falsy test). -/
def colName (headers : List String) (colIdx : ℕ) : String :=
  match headers[colIdx]? with
  | some s => if s = "" then "欄位 " ++ colLetter colIdx else s
  | none => "欄位 " ++ colLetter colIdx

/-- Row-variable label (line 476): String(row[0] ?? fallback), where the
fallback names the row by position. -/
def rowLabel (row : Row) (rowIdx : ℕ) : String :=
  match row[0]? with
  | some Cell.absent => "列 " ++ toString (rowIdx + 1)
  | some c => c.display
  | none => "列 " ++ toString (rowIdx + 1)

/-- Series extraction (handleAnalyze, DataConfig.tsx lines 441-500).  The
selection is traversed in its JavaScript Set iteration order, which is
insertion order, modelled here by the list of selected indices; a candidate
is kept only when at least 2 of its values are not NaN; under row
orientation a selected index with no corresponding data row is skipped. -/
def extractVariables (dataRows : List Row) (headers : List String)
    (orient : Orientation) (selected : List ℕ) : List VariableData :=
  match orient with
  | .columns =>
    selected.filterMap fun colIdx =>
      let values := columnValues dataRows colIdx
      if 2 ≤ jsValidCount values then
        some { name := colName headers colIdx, values := values }
      else none
  | .rows =>
    selected.filterMap fun rowIdx =>
      match dataRows[rowIdx]? with
      | none => none
      | some row =>
        let values := rowValues row
        if 2 ≤ jsValidCount values then
          some { name := rowLabel row rowIdx, values := values }
        else none

/-- The two failure signals of handleAnalyze (the alerts at DataConfig.tsx
lines 437 and 503). -/
inductive AnalyzeError where
  | insufficientSelection
  | insufficientData
  deriving DecidableEq, Repr

/-- handleAnalyze (DataConfig.tsx lines 435-508): refuse with the
insufficient-selection signal when fewer than 2 indices are selected;
otherwise extract the variables and refuse with the insufficient-data
signal when fewer than 2 survive; otherwise hand the variables on. -/
def handleAnalyze (dataRows : List Row) (headers : List String)
    (orient : Orientation) (selected : List ℕ) :
    Except AnalyzeError (List VariableData) :=
  if selected.length < 2 then .error .insufficientSelection
  else
    let vars := extractVariables dataRows headers orient selected
    if vars.length < 2 then .error .insufficientData
    else .ok vars
/-! ### Helper lemmas -/

lemma gridAt_generate (data : List VariableData) {i j : ℕ}
    (hi : i < data.length) (hj : j < data.length) :
    gridAt (generateCorrelationMatrix data) i j = gridEntry data i j := by
  have hrow : (generateCorrelationMatrix data).grid.getD i [] =
      (List.range data.length).map (fun j => gridEntry data i j) := by
    unfold generateCorrelationMatrix
    rw [List.getD_eq_getElem?_getD, List.getElem?_map, List.getElem?_range hi]
    simp
  unfold gridAt
  rw [hrow, List.getD_eq_getElem?_getD, List.getElem?_map, List.getElem?_range hj]
  simp

lemma gridEntry_symm (data : List VariableData) (i j : ℕ) :
    gridEntry data i j = gridEntry data j i := by
  unfold gridEntry
  rcases lt_trichotomy i j with h | h | h
  · rw [if_neg (Nat.ne_of_lt h), if_pos h, if_neg (Nat.ne_of_gt h),
      if_neg (Nat.lt_asymm h)]
  · simp [h]
  · rw [if_neg (Nat.ne_of_gt h), if_neg (Nat.lt_asymm h),
      if_neg (Nat.ne_of_lt h), if_pos h]

lemma mem_foldl_insertIf (P : ℕ → Prop) [DecidablePred P]
    (l : List ℕ) (s : Finset ℕ) (a : ℕ) :
    (a ∈ l.foldl (fun acc i => if P i then insert i acc else acc) s) ↔
      a ∈ s ∨ (a ∈ l ∧ P a) := by
  induction l generalizing s with
  | nil => simp
  | cons i t ih =>
    rw [List.foldl_cons]
    by_cases h : P i
    · rw [if_pos h, ih]
      simp only [Finset.mem_insert, List.mem_cons]
      constructor
      · rintro ((rfl | hs) | ht)
        · exact Or.inr ⟨Or.inl rfl, h⟩
        · exact Or.inl hs
        · exact Or.inr ⟨Or.inr ht.1, ht.2⟩
      · rintro (hs | ⟨rfl | ht, hp⟩)
        · exact Or.inl (Or.inr hs)
        · exact Or.inl (Or.inl rfl)
        · exact Or.inr ⟨ht, hp⟩
    · rw [if_neg h, ih]
      simp only [List.mem_cons]
      constructor
      · rintro (hs | ht)
        · exact Or.inl hs
        · exact Or.inr ⟨Or.inr ht.1, ht.2⟩
      · rintro (hs | ⟨rfl | ht, hp⟩)
        · exact Or.inl hs
        · exact absurd hp h
        · exact Or.inr ⟨ht, hp⟩

lemma detect_counts (r : Row) (sc nc : ℕ) :
    r.foldl
      (fun (c : ℕ × ℕ) cell =>
        match cell with
        | Cell.absent => c
        | Cell.str _ none => (c.1 + 1, c.2)
        | Cell.str _ (some _) => (c.1, c.2 + 1)
        | Cell.num _ => (c.1, c.2 + 1))
      (sc, nc) =
      (sc + r.countP specStringLikeB, nc + r.countP specNumberLikeB) := by
  induction r generalizing sc nc with
  | nil => simp
  | cons cell t ih =>
    rw [List.foldl_cons, List.countP_cons, List.countP_cons]
    cases cell with
    | absent => rw [ih]; simp [specStringLikeB, specNumberLikeB]
    | str s pf =>
      cases pf with
      | none => rw [ih]; simp [specStringLikeB, specNumberLikeB]; omega
      | some q => rw [ih]; simp [specStringLikeB, specNumberLikeB]; omega
    | num v => rw [ih]; simp [specStringLikeB, specNumberLikeB]; omega

lemma list_map_sum_const {α : Type} (l : List α) (f : α → ℚ) (c : ℚ)
    (h : ∀ a ∈ l, f a = c) : (l.map f).sum = l.length * c := by
  induction l with
  | nil => simp
  | cons a t ih =>
    rw [List.map_cons, List.sum_cons, h a (List.mem_cons_self a t),
      ih (fun b hb => h b (List.mem_cons_of_mem a hb)), List.length_cons]
    push_cast
    ring

lemma validPairs_fst_const {x y : List Val} {c : ℚ}
    (hx : ∀ v ∈ x, v = Val.num c) :
    ∀ p ∈ validPairs x y, p.1 = c := by
  intro p hp
  unfold validPairs at hp
  rcases List.mem_filterMap.mp hp with ⟨i, _, hpi⟩
  unfold probe at hpi
  rcases hxv : x[i]? with _ | xv
  · rw [hxv] at hpi; exact absurd hpi (by simp)
  · rcases hyv : y[i]? with _ | yv
    · rw [hxv, hyv] at hpi
      exact absurd hpi (by cases xv <;> simp)
    · rw [hxv, hyv] at hpi
      have hmem : xv ∈ x := List.getElem?_mem hxv
      have hxc : xv = Val.num c := hx xv hmem
      subst hxc
      cases yv with
      | num q =>
        simp only [Option.some.injEq] at hpi
        rw [← hpi]
      | nan => simp at hpi
      | inf => simp at hpi
      | neginf => simp at hpi

/-- With at least 2 valid pairs and a vanishing denominator the result is
literally some 0. -/
lemma pearson_denomZero {x y : List Val}
    (h2 : 2 ≤ (pearsonAcc x y).validCount)
    (hd : pDenominator (pearsonAcc x y) = 0) :
    calculatePearsonCorrelation x y = some 0 := by
  unfold calculatePearsonCorrelation
  rw [if_neg (by omega), if_pos hd]

/-- A constant left series forces the first variance factor, hence the whole
radicand, to vanish. -/
lemma pDenomSq_const_left {x y : List Val} {c : ℚ}
    (hx : ∀ v ∈ x, v = Val.num c) :
    pDenomSq (pearsonAcc x y) = 0 := by
  rw [pearsonAcc_eq_sumsOf]
  set ps := validPairs x y with hps
  have hfst : ∀ p ∈ ps, p.1 = c := validPairs_fst_const hx
  have h1 : (ps.map fun p => p.1).sum = ps.length * c :=
    list_map_sum_const ps _ c hfst
  have h2 : (ps.map fun p => p.1 * p.1).sum = ps.length * (c * c) :=
    list_map_sum_const ps _ (c * c) (fun p hp => by rw [hfst p hp])
  unfold pDenomSq sumsOf
  simp only [h1, h2]
  ring
lemma mem_defaultSelection_columns (table : List Row) (hasHeaderRow : Bool)
    (i : ℕ) :
    i ∈ defaultSelection table hasHeaderRow Orientation.columns ↔
      i < (headersAndDataRows table hasHeaderRow).1.length ∧
      0 < ((headersAndDataRows table hasHeaderRow).2.take 20).length ∧
      ((((headersAndDataRows table hasHeaderRow).2.take 20).length : ℚ) * (3 / 10) <
        ((((headersAndDataRows table hasHeaderRow).2.take 20).countP
          fun row => isNumericLikeCellB row[i]?) : ℚ)) := by
  simp only [defaultSelection]
  rw [mem_foldl_insertIf]
  simp only [Finset.not_mem_empty, false_or, List.mem_range]

lemma mem_defaultSelection_rowsOrient (table : List Row) (hasHeaderRow : Bool)
    (i : ℕ) :
    i ∈ defaultSelection table hasHeaderRow Orientation.rows ↔
      i < (headersAndDataRows table hasHeaderRow).2.length ∧
      1 < ((headersAndDataRows table hasHeaderRow).2.getD i []).length ∧
      (((((headersAndDataRows table hasHeaderRow).2.getD i []).length : ℚ) - 1) * (3 / 10) <
        ((((headersAndDataRows table hasHeaderRow).2.getD i []).drop 1).countP
          fun c => isNumericLikeCellB (some c) : ℚ)) := by
  simp only [defaultSelection]
  rw [mem_foldl_insertIf]
  simp only [Finset.not_mem_empty, false_or, List.mem_range]

lemma mem_defaultSelectionSpec_columns (table : List Row) (hasHeaderRow : Bool)
    (i : ℕ) :
    i ∈ defaultSelectionSpec table hasHeaderRow Orientation.columns ↔
      i < (headersAndDataRows table hasHeaderRow).1.length ∧
      0 < ((headersAndDataRows table hasHeaderRow).2.take 20).length ∧
      ((((headersAndDataRows table hasHeaderRow).2.take 20).length : ℚ) * (3 / 10) <
        ((((headersAndDataRows table hasHeaderRow).2.take 20).countP
          fun row => coercesToFiniteB row[i]?) : ℚ)) := by
  simp only [defaultSelectionSpec]
  rw [Finset.mem_filter, Finset.mem_range]

/-! ### Claim theorems -/

/-- C1: for every input list of series, the produced grid has grid[i][i]
equal to the fixed constant 1, grid[i][j] equal to grid[j][i] for every
pair of valid indices, and for i below j the shared mirrored value is the
pearson coefficient of series i against series j with 0 substituted when
pearson signals undefined. -/
theorem C1_matrix_invariants (data : List VariableData) (i j : ℕ)
    (hi : i < data.length) (hj : j < data.length) :
    gridAt (generateCorrelationMatrix data) i i = 1 ∧
    gridAt (generateCorrelationMatrix data) i j =
      gridAt (generateCorrelationMatrix data) j i ∧
    (i < j → gridAt (generateCorrelationMatrix data) i j =
      pearsonOrZero (data.getD i ⟨"", []⟩).values (data.getD j ⟨"", []⟩).values) := by
  refine ⟨?_, ?_, fun hij => ?_⟩
  · rw [gridAt_generate data hi hi]
    unfold gridEntry
    rw [if_pos rfl]
  · rw [gridAt_generate data hi hj, gridAt_generate data hj hi]
    exact gridEntry_symm data i j
  · rw [gridAt_generate data hi hj]
    unfold gridEntry
    rw [if_neg (Nat.ne_of_lt hij), if_pos hij]

theorem C1_matrix_invariants_witness :
    gridAt (generateCorrelationMatrix
      [⟨"a", [Val.num 1, Val.num 2]⟩, ⟨"b", [Val.num 1, Val.num 2]⟩]) 0 0 = 1 ∧
    gridAt (generateCorrelationMatrix
      [⟨"a", [Val.num 1, Val.num 2]⟩, ⟨"b", [Val.num 1, Val.num 2]⟩]) 0 1 =
      gridAt (generateCorrelationMatrix
        [⟨"a", [Val.num 1, Val.num 2]⟩, ⟨"b", [Val.num 1, Val.num 2]⟩]) 1 0 ∧
    (0 < 1 → gridAt (generateCorrelationMatrix
      [⟨"a", [Val.num 1, Val.num 2]⟩, ⟨"b", [Val.num 1, Val.num 2]⟩]) 0 1 =
      pearsonOrZero
        (([⟨"a", [Val.num 1, Val.num 2]⟩,
           ⟨"b", [Val.num 1, Val.num 2]⟩] : List VariableData).getD 0 ⟨"", []⟩).values
        (([⟨"a", [Val.num 1, Val.num 2]⟩,
           ⟨"b", [Val.num 1, Val.num 2]⟩] : List VariableData).getD 1 ⟨"", []⟩).values) :=
  C1_matrix_invariants _ 0 1 (by norm_num) (by norm_num)

/-- C2: the pearson loop walks positions up to the length of the longer
sequence and skips every position where either side is missing or not
finite, so the accumulator holds exactly the plain sums and count over the
valid pairs; with fewer than 2 valid pairs the result is the undefined
marker, and otherwise, whenever the denominator is nonzero, the result is
the textbook quotient over those sums. -/
theorem C2_pearson_formula (x y : List Val) :
    pearsonAcc x y = sumsOf (validPairs x y) ∧
    ((validPairs x y).length < 2 → calculatePearsonCorrelation x y = none) ∧
    (2 ≤ (validPairs x y).length →
      pDenominator (sumsOf (validPairs x y)) ≠ 0 →
      calculatePearsonCorrelation x y =
        some ((pNumerator (sumsOf (validPairs x y)) : ℝ) /
          pDenominator (sumsOf (validPairs x y)))) := by
  have hacc := pearsonAcc_eq_sumsOf x y
  have hcount : (pearsonAcc x y).validCount = (validPairs x y).length := by
    rw [hacc]; rfl
  refine ⟨hacc, fun hlt => ?_, fun h2 hd => ?_⟩
  · unfold calculatePearsonCorrelation
    rw [if_pos (by omega)]
  · unfold calculatePearsonCorrelation
    rw [if_neg (by omega), hacc, if_neg hd]

theorem C2_pearson_formula_witness :
    pearsonAcc [Val.num 1, Val.num 2, Val.num 3] [Val.num 1, Val.num 2] =
      sumsOf (validPairs [Val.num 1, Val.num 2, Val.num 3]
        [Val.num 1, Val.num 2]) ∧
    calculatePearsonCorrelation [Val.num 1, Val.num 2, Val.num 3]
        [Val.num 1, Val.num 2] =
      some ((pNumerator (sumsOf (validPairs [Val.num 1, Val.num 2, Val.num 3]
          [Val.num 1, Val.num 2])) : ℝ) /
        pDenominator (sumsOf (validPairs [Val.num 1, Val.num 2, Val.num 3]
          [Val.num 1, Val.num 2]))) := by
  refine ⟨(C2_pearson_formula _ _).1, (C2_pearson_formula _ _).2.2
    (by norm_num [validPairs, probe, List.range_succ, List.filterMap_cons,
      List.filterMap_nil]) ?_⟩
  unfold pDenominator
  rw [show pDenomSq (sumsOf (validPairs [Val.num 1, Val.num 2, Val.num 3]
    [Val.num 1, Val.num 2])) = 1 from by
      norm_num [validPairs, probe, sumsOf, pDenomSq, List.range_succ,
        List.filterMap_cons, List.filterMap_nil]]
  rw [Rat.cast_one, Real.sqrt_one]
  norm_num

/-- C3 counterexample: for the constant zero-variance series [0, 0] against
the one-element series [1] the denominator is exactly zero, yet
calculatePearsonCorrelation returns the undefined marker, not 0: the
insufficient-pairs guard fires before the denominator is ever examined. -/
theorem C3_counterexample :
    pDenominator (pearsonAcc [Val.num 0, Val.num 0] [Val.num 1]) = 0 ∧
    calculatePearsonCorrelation [Val.num 0, Val.num 0] [Val.num 1] = none := by
  constructor
  · unfold pDenominator
    rw [show pDenomSq (pearsonAcc [Val.num 0, Val.num 0] [Val.num 1]) = 0
      from by norm_num [pearsonAcc, pStep, pDenomSq, List.range_succ]]
    simp
  · unfold calculatePearsonCorrelation
    rw [if_pos (by norm_num [pearsonAcc, pStep, List.range_succ])]

/-- C3 amended: provided at least 2 valid pairs exist, a vanishing
denominator yields some 0 rather than the undefined marker; in particular a
constant (zero-variance) series against any other series with which it
shares at least 2 valid pairs yields some 0, not undefined. -/
theorem C3_zero_denominator_convention :
    (∀ x y : List Val, 2 ≤ (pearsonAcc x y).validCount →
      pDenominator (pearsonAcc x y) = 0 →
      calculatePearsonCorrelation x y = some 0) ∧
    (∀ (x y : List Val) (c : ℚ), (∀ v ∈ x, v = Val.num c) →
      2 ≤ (pearsonAcc x y).validCount →
      calculatePearsonCorrelation x y = some 0) := by
  refine ⟨fun x y h2 hd => pearson_denomZero h2 hd, fun x y c hc h2 => ?_⟩
  apply pearson_denomZero h2
  unfold pDenominator
  rw [pDenomSq_const_left hc]
  simp

theorem C3_zero_denominator_convention_witness :
    calculatePearsonCorrelation [Val.num 1, Val.num 1]
      [Val.num 2, Val.num 3] = some 0 ∧
    calculatePearsonCorrelation [Val.num 5, Val.num 5]
      [Val.num 1, Val.num 2] = some 0 := by
  constructor
  · refine C3_zero_denominator_convention.1 _ _
      (by norm_num [pearsonAcc, pStep, List.range_succ]) ?_
    unfold pDenominator
    rw [show pDenomSq (pearsonAcc [Val.num 1, Val.num 1]
      [Val.num 2, Val.num 3]) = 0 from by
        norm_num [pearsonAcc, pStep, pDenomSq, List.range_succ]]
    simp
  · exact C3_zero_denominator_convention.2 _ _ 5 (by simp)
      (by norm_num [pearsonAcc, pStep, List.range_succ])

/-- C4: every entry of the grid produced by generateCorrelationMatrix lies
in the closed interval [-1, 1]. -/
theorem C4_entries_bounded (data : List VariableData) (i j : ℕ)
    (hi : i < data.length) (hj : j < data.length) :
    -1 ≤ gridAt (generateCorrelationMatrix data) i j ∧
      gridAt (generateCorrelationMatrix data) i j ≤ 1 := by
  rw [gridAt_generate data hi hj]
  unfold gridEntry
  by_cases hij : i = j
  · rw [if_pos hij]
    norm_num
  · rw [if_neg hij]
    by_cases hlt : i < j
    · rw [if_pos hlt]
      exact abs_le.mp (abs_pearsonOrZero_le_one _ _)
    · rw [if_neg hlt]
      exact abs_le.mp (abs_pearsonOrZero_le_one _ _)

theorem C4_entries_bounded_witness :
    -1 ≤ gridAt (generateCorrelationMatrix
      [⟨"a", [Val.num 1, Val.num 2]⟩, ⟨"b", [Val.num 2, Val.num 1]⟩]) 0 1 ∧
    gridAt (generateCorrelationMatrix
      [⟨"a", [Val.num 1, Val.num 2]⟩, ⟨"b", [Val.num 2, Val.num 1]⟩]) 0 1 ≤ 1 :=
  C4_entries_bounded _ 0 1 (by norm_num) (by norm_num)

/-- C10: generateCorrelationMatrix is total over every input list and never
signals an error: it always returns the mapped names with an n-by-n grid;
for no series the variables and grid are empty, and for a single series the
grid is the 1-by-1 identity [[1]]. -/
theorem C10_no_gate_inside (data : List VariableData) (d : VariableData) :
    (generateCorrelationMatrix data).variables = data.map (fun v => v.name) ∧
    (generateCorrelationMatrix data).grid.length = data.length ∧
    (generateCorrelationMatrix data).grid.map List.length =
      List.replicate data.length data.length ∧
    generateCorrelationMatrix [] = { «variables» := [], grid := [] } ∧
    generateCorrelationMatrix [d] = { «variables» := [d.name], grid := [[1]] } := by
  refine ⟨rfl, by simp [generateCorrelationMatrix], ?_, ?_, ?_⟩
  · unfold generateCorrelationMatrix
    simp [List.map_map, Function.comp_def]
  · rfl
  · simp [generateCorrelationMatrix, gridEntry, List.range_succ]
/-- C5: header inference inspects only row 0 and decides header-present
exactly when S is positive and S is at least N, where S counts non-missing
textual cells that fail numeric coercion, N counts numeric or
numeric-coercible textual cells, and missing cells are ignored entirely;
the three specification examples behave as stated. -/
theorem C5_header_inference :
    (∀ (r0 : Row) (rest : List Row),
      detectHeaderRow (r0 :: rest) =
        decide (0 < r0.countP specStringLikeB ∧
          r0.countP specNumberLikeB ≤ r0.countP specStringLikeB)) ∧
    detectHeaderRow [] = false ∧
    detectHeaderRow [[Cell.str ("Revenue") none, Cell.str ("Users") none,
      Cell.str ("Region") none]] = true ∧
    detectHeaderRow [[Cell.num (.num 10), Cell.num (.num 20),
      Cell.num (.num 30)]] = false ∧
    detectHeaderRow [[Cell.str ("A") none, Cell.num (.num 5),
      Cell.num (.num 10)]] = false := by
  refine ⟨fun r0 rest => ?_, rfl, by decide, by decide, by decide⟩
  simp only [detectHeaderRow]
  rw [detect_counts r0 0 0]
  simp

/-- C6 counterexample: for the table whose only cell is the NaN-valued
number, the code's default column selection contains column 0 (a NaN-typed
number cell passes the typeof test and counts as numeric), while the
specification's coerces-to-a-finite-number rule excludes it, so the default
selection is not the set the claim describes. -/
theorem C6_counterexample :
    0 ∈ defaultSelection [[Cell.num .nan]] false Orientation.columns ∧
    0 ∉ defaultSelectionSpec [[Cell.num .nan]] false Orientation.columns := by
  constructor
  · rw [mem_defaultSelection_columns]
    refine ⟨by norm_num [headersAndDataRows], by norm_num [headersAndDataRows], ?_⟩
    norm_num [headersAndDataRows, isNumericLikeCellB]
  · rw [mem_defaultSelectionSpec_columns]
    rintro ⟨-, -, hlt⟩
    norm_num [headersAndDataRows, coercesToFiniteB, coerceCell,
      Val.isFiniteB] at hlt

/-- C6 amended: for every table, header decision and orientation, the
default SelectionSet contains exactly those indices whose count of sampled
cells passing the code's numeric test (number-typed, including NaN and the
infinities, or string with a parseable numeric prefix) exceeds 30 percent
of the sampled count: by column over the first 20 data rows with empty
samples excluded, by row over the cells after the first (label) cell with
rows of length at most 1 excluded. -/
theorem C6_default_selection (table : List Row) (hasHeaderRow : Bool) (i : ℕ) :
    (i ∈ defaultSelection table hasHeaderRow Orientation.columns ↔
      i < (headersAndDataRows table hasHeaderRow).1.length ∧
      0 < ((headersAndDataRows table hasHeaderRow).2.take 20).length ∧
      ((((headersAndDataRows table hasHeaderRow).2.take 20).length : ℚ) * (3 / 10) <
        ((((headersAndDataRows table hasHeaderRow).2.take 20).countP
          fun row => isNumericLikeCellB row[i]?) : ℚ))) ∧
    (i ∈ defaultSelection table hasHeaderRow Orientation.rows ↔
      i < (headersAndDataRows table hasHeaderRow).2.length ∧
      1 < ((headersAndDataRows table hasHeaderRow).2.getD i []).length ∧
      (((((headersAndDataRows table hasHeaderRow).2.getD i []).length : ℚ) - 1) * (3 / 10) <
        ((((headersAndDataRows table hasHeaderRow).2.getD i []).drop 1).countP
          fun c => isNumericLikeCellB (some c) : ℚ))) :=
  ⟨mem_defaultSelection_columns table hasHeaderRow i,
    mem_defaultSelection_rowsOrient table hasHeaderRow i⟩
lemma extract_mem_validCount {d : List Row} {h : List String}
    {or : Orientation} {sel : List ℕ} {v : VariableData}
    (hv : v ∈ extractVariables d h or sel) : 2 ≤ jsValidCount v.values := by
  cases or with
  | columns =>
    simp only [extractVariables] at hv
    rcases List.mem_filterMap.mp hv with ⟨c, _, heq⟩
    by_cases h2 : 2 ≤ jsValidCount (columnValues d c)
    · rw [if_pos h2] at heq
      have hveq := Option.some.inj heq
      subst hveq
      exact h2
    · rw [if_neg h2] at heq
      exact absurd heq (by simp)
  | rows =>
    simp only [extractVariables] at hv
    rcases List.mem_filterMap.mp hv with ⟨r, _, heq⟩
    rcases hr : d[r]? with _ | row
    · rw [hr] at heq
      exact absurd heq (by simp)
    · rw [hr] at heq
      dsimp only at heq
      by_cases h2 : 2 ≤ jsValidCount (rowValues row)
      · rw [if_pos h2] at heq
        have hveq := Option.some.inj heq
        subst hveq
        exact h2
      · rw [if_neg h2] at heq
        exact absurd heq (by simp)

lemma filterMap_map_sublist {α β γ : Type} (l : List α) (f : α → Option β)
    (g : β → γ) (nm : α → γ) (h : ∀ a b, f a = some b → g b = nm a) :
    ((l.filterMap f).map g).Sublist (l.map nm) := by
  induction l with
  | nil => simp
  | cons a t ih =>
    rw [List.filterMap_cons, List.map_cons]
    cases hf : f a with
    | none => exact List.Sublist.cons _ ih
    | some b =>
      rw [List.map_cons, h a b hf]
      exact List.Sublist.cons₂ _ ih

/-- C7 amended: extraction drops every Series whose count of non-NaN values
(the code's validity test, under which the infinities count as valid) is
below 2 -- every extracted Series passes that test and only surviving
Series reach the matrix's variables axis -- and when fewer than 2 Series
survive, handleAnalyze fails with the insufficient-data signal instead of
producing a matrix. -/
theorem C7_insufficient_data_filter :
    (∀ (d : List Row) (h : List String) (or : Orientation) (sel : List ℕ)
        (v : VariableData), v ∈ extractVariables d h or sel →
      2 ≤ jsValidCount v.values) ∧
    (∀ (d : List Row) (h : List String) (or : Orientation) (sel : List ℕ),
      handleAnalyze d h or sel = .error .insufficientData ↔
        2 ≤ sel.length ∧ (extractVariables d h or sel).length < 2) ∧
    (∀ (d : List Row) (h : List String) (or : Orientation) (sel : List ℕ)
        (vars : List VariableData), handleAnalyze d h or sel = .ok vars →
      vars = extractVariables d h or sel ∧ 2 ≤ vars.length ∧
      (generateCorrelationMatrix vars).variables =
        vars.map (fun v => v.name)) := by
  refine ⟨fun d h or sel v hv => extract_mem_validCount hv,
    fun d h or sel => ?_, fun d h or sel vars hok => ?_⟩
  · simp only [handleAnalyze]
    split_ifs with h1 h2
    · simp only [Except.error.injEq]
      constructor
      · intro hcon
        cases hcon
      · intro hcon
        omega
    · simp only [Except.error.injEq, true_iff]
      exact ⟨by omega, h2⟩
    · constructor
      · intro hcon
        cases hcon
      · intro hcon
        omega
  · simp only [handleAnalyze] at hok
    by_cases h1 : sel.length < 2
    · rw [if_pos h1] at hok
      cases hok
    · rw [if_neg h1] at hok
      by_cases h2 : (extractVariables d h or sel).length < 2
      · rw [if_pos h2] at hok
        cases hok
      · rw [if_neg h2] at hok
        have hveq := Except.ok.inj hok
        subst hveq
        exact ⟨rfl, by omega, rfl⟩

theorem C7_insufficient_data_filter_witness :
    2 ≤ jsValidCount
      ((⟨("A" : String), [Val.num 1, Val.num 2]⟩ : VariableData)).values ∧
    (([⟨("A" : String), [Val.num 1, Val.num 2]⟩,
       ⟨("B" : String), [Val.num 2, Val.num 3]⟩] : List VariableData) =
      extractVariables
        [[Cell.num (.num 1), Cell.num (.num 2)],
         [Cell.num (.num 2), Cell.num (.num 3)]]
        [("A" : String), ("B" : String)] Orientation.columns [0, 1] ∧
      2 ≤ ([⟨("A" : String), [Val.num 1, Val.num 2]⟩,
        ⟨("B" : String), [Val.num 2, Val.num 3]⟩] : List VariableData).length ∧
      (generateCorrelationMatrix
        [⟨("A" : String), [Val.num 1, Val.num 2]⟩,
         ⟨("B" : String), [Val.num 2, Val.num 3]⟩]).variables =
        ([⟨("A" : String), [Val.num 1, Val.num 2]⟩,
          ⟨("B" : String), [Val.num 2, Val.num 3]⟩] : List VariableData).map
          (fun v => v.name)) := by
  constructor
  · refine C7_insufficient_data_filter.1
      [[Cell.num (.num 1)], [Cell.num (.num 2)]] [("A" : String)]
      Orientation.columns [0] _ ?_
    simp [extractVariables, columnValues, coerceCell, jsValidCount,
      Val.isNaNB, colName]
  · refine C7_insufficient_data_filter.2.2
      [[Cell.num (.num 1), Cell.num (.num 2)],
       [Cell.num (.num 2), Cell.num (.num 3)]]
      [("A" : String), ("B" : String)] Orientation.columns [0, 1] _ ?_
    simp [handleAnalyze, extractVariables, columnValues, coerceCell,
      jsValidCount, Val.isNaNB, colName]

/-- C8 counterexample: with columns A and B both selected but inserted in
the order [1, 0], extraction produces the series named B before the series
named A -- the iteration order of the JavaScript Set (insertion order), not
the ascending index order the claim states, under which the names would
read [A, B]. -/
theorem C8_counterexample :
    (extractVariables
      [[Cell.num (.num 1), Cell.num (.num 10)],
       [Cell.num (.num 2), Cell.num (.num 20)]]
      [("A" : String), ("B" : String)] Orientation.columns [1, 0]).map
        (fun v => v.name) = [("B" : String), ("A" : String)] ∧
    (extractVariables
      [[Cell.num (.num 1), Cell.num (.num 10)],
       [Cell.num (.num 2), Cell.num (.num 20)]]
      [("A" : String), ("B" : String)] Orientation.columns [0, 1]).map
        (fun v => v.name) = [("A" : String), ("B" : String)] ∧
    ([("B" : String), ("A" : String)] : List String) ≠
      [("A" : String), ("B" : String)] := by
  refine ⟨?_, ?_, by decide⟩
  · simp [extractVariables, columnValues, coerceCell, jsValidCount,
      Val.isNaNB, colName]
  · simp [extractVariables, columnValues, coerceCell, jsValidCount,
      Val.isNaNB, colName]

/-- C8 amended: the ordered sequence of extracted Series follows the
iteration order of the SelectionSet (the JavaScript Set's insertion order,
modelled by the selection list), not ascending index order: extraction
distributes over concatenation of the selection sequence, and the extracted
names are a sublist of the selection's names read in selection order. -/
theorem C8_extraction_order (d : List Row) (h : List String)
    (or : Orientation) (s t sel : List ℕ) :
    extractVariables d h or (s ++ t) =
      extractVariables d h or s ++ extractVariables d h or t ∧
    ((extractVariables d h Orientation.columns sel).map (fun v => v.name)).Sublist
      (sel.map (colName h)) := by
  constructor
  · cases or <;> simp only [extractVariables] <;> rw [List.filterMap_append]
  · simp only [extractVariables]
    apply filterMap_map_sublist
    intro c v hc
    by_cases h2 : 2 ≤ jsValidCount (columnValues d c)
    · rw [if_pos h2] at hc
      have hveq := Option.some.inj hc
      subst hveq
      rfl
    · rw [if_neg h2] at hc
      exact absurd hc (by simp)

/-- C9: under column orientation every extracted Series has exactly one
value per data row (its values are the column's coerced cells, so all
Series share the data-row count as their length), position p holds the
coercion of the cell at that column in row p, and the example column
[10, abc, 30] yields the length-3 series [10, NaN, 30] with the NaN
placeholder at position 1. -/
theorem C9_column_alignment :
    (∀ (d : List Row) (h : List String) (sel : List ℕ) (v : VariableData),
      v ∈ extractVariables d h Orientation.columns sel →
        v.values.length = d.length ∧ ∃ c ∈ sel, v.values = columnValues d c) ∧
    (∀ (d : List Row) (c p : ℕ), p < d.length →
      (columnValues d c).getD p Val.nan = coerceCell ((d.getD p [])[c]?)) ∧
    columnValues [[Cell.num (.num 10)], [Cell.str ("abc") none],
      [Cell.num (.num 30)]] 0 = [Val.num 10, Val.nan, Val.num 30] := by
  refine ⟨fun d h sel v hv => ?_, fun d c p hp => ?_,
    by simp [columnValues, coerceCell]⟩
  · simp only [extractVariables] at hv
    rcases List.mem_filterMap.mp hv with ⟨cIdx, hcIdx, heq⟩
    by_cases h2 : 2 ≤ jsValidCount (columnValues d cIdx)
    · rw [if_pos h2] at heq
      have hveq := Option.some.inj heq
      subst hveq
      exact ⟨by simp [columnValues], cIdx, hcIdx, rfl⟩
    · rw [if_neg h2] at heq
      exact absurd heq (by simp)
  · unfold columnValues
    rw [List.getD_eq_getElem?_getD, List.getElem?_map,
      List.getElem?_eq_getElem hp]
    simp only [Option.map_some', Option.getD_some]
    congr 2
    simp [List.getD_eq_getElem?_getD, List.getElem?_eq_getElem hp]

theorem C9_column_alignment_witness :
    (⟨("X" : String), [Val.num 10, Val.nan, Val.num 30]⟩ :
        VariableData).values.length =
      ([[Cell.num (.num 10)], [Cell.str ("abc") none],
        [Cell.num (.num 30)]] : List Row).length ∧
    (∃ c ∈ [0], (⟨("X" : String), [Val.num 10, Val.nan, Val.num 30]⟩ :
        VariableData).values =
      columnValues [[Cell.num (.num 10)], [Cell.str ("abc") none],
        [Cell.num (.num 30)]] c) ∧
    (columnValues [[Cell.num (.num 10)], [Cell.str ("abc") none],
        [Cell.num (.num 30)]] 0).getD 1 Val.nan =
      coerceCell ((([[Cell.num (.num 10)], [Cell.str ("abc") none],
        [Cell.num (.num 30)]] : List Row).getD 1 [])[0]?) := by
  have hmem : (⟨("X" : String), [Val.num 10, Val.nan, Val.num 30]⟩ :
      VariableData) ∈ extractVariables
        [[Cell.num (.num 10)], [Cell.str ("abc") none], [Cell.num (.num 30)]]
        [("X" : String)] Orientation.columns [0] := by
    simp [extractVariables, columnValues, coerceCell, jsValidCount,
      Val.isNaNB, colName]
  have hr := C9_column_alignment.1 _ _ _ _ hmem
  exact ⟨hr.1, hr.2, C9_column_alignment.2.1 _ 0 1 (by norm_num)⟩
/-- C7 counterexample: a column whose values are [Infinity, 5] has only one
finite value, yet extraction keeps it as a Series: the code's validity
filter counts the non-finite Infinity as valid (only NaN is excluded), so a
Series the claim says must be dropped survives into the output. -/
theorem C7_counterexample :
    (extractVariables [[Cell.num .inf], [Cell.num (.num 5)]] [("A" : String)]
        Orientation.columns [0]).map (fun v => specFiniteCount v.values) =
      [1] ∧ (1 : ℕ) < 2 := by
  constructor
  · simp [extractVariables, columnValues, coerceCell, jsValidCount,
      Val.isNaNB, colName, specFiniteCount, Val.isFiniteB]
  · norm_num
